import Mathlib

/-!
Shallow embedding of the color-extraction and recommendation core of
`branding_guideline.py` (functions `extract_colors`, `expand_color_shorthand`,
`get_top_colors`, `extract_button_colors`, `recommend_contrasting_color`,
`recommend_button_color`), together with theorems settling the frozen claims
about that code.

Modelling conventions:
- Python strings are Lean `String`s; scanning works on `String.data`
  (`List Char`).  The regular-expression scans of the source
  (`re.findall` with the patterns for hex color tokens and for
  `button`-prefixed rule blocks) are embedded as explicit left-to-right,
  non-overlapping scanners, written with an explicit fuel argument (the
  length of the scanned text) so that every definition is a structural
  recursion and evaluates by kernel reduction.
- Python floats are embedded as exact rationals (`ℚ`); the luminance
  weights `0.2126`, `0.7152`, `0.0722` and the threshold `0.5` are the
  corresponding rational literals.
- Python's `set(...)` (whose enumeration order is unspecified) is embedded
  as first-occurrence deduplication; every property proved about it is
  independent of the enumeration order.
- The uncaught `IndexError` raised by `sorted_colors[0]` on an empty
  palette is embedded as the `none` result of `recommend_contrasting_color`.
-/

/-- Marker for the triple of 0–255 channel values produced by `hex_to_rgb`. -/
abbrev RGB := ℕ × ℕ × ℕ

/-- Value of one hexadecimal digit, as computed by Python's `int(_, 16)` on
the characters `0`-`9`, `a`-`f`, `A`-`F`; junk value `0` outside that range
(the source only ever parses hex digits here). -/
def hexDigitVal (c : Char) : ℕ :=
  if 48 ≤ c.toNat ∧ c.toNat ≤ 57 then c.toNat - 48
  else if 97 ≤ c.toNat ∧ c.toNat ≤ 102 then c.toNat - 87
  else if 65 ≤ c.toNat ∧ c.toNat ≤ 70 then c.toNat - 55
  else 0

/-- Value of the two-character hex pair starting at index `i`, as computed by
`int(hex_color[i:i+2], 16)` in the source. -/
def hexPairVal (l : List Char) (i : ℕ) : ℕ :=
  16 * hexDigitVal (l.getD i '0') + hexDigitVal (l.getD (i + 1) '0')

/-- Embedding of the inner helper `hex_to_rgb` of `recommend_contrasting_color`:
strip leading `#` markers (Python `lstrip('#')`), then read the three hex
pairs at offsets 0, 2, 4. -/
def hex_to_rgb (s : String) : RGB :=
  let h := s.data.dropWhile (· = '#')
  (hexPairVal h 0, hexPairVal h 2, hexPairVal h 4)

/-- Embedding of the inner helper `relative_luminance`: the unnormalized
weighted sum `0.2126*R + 0.7152*G + 0.0722*B` on 0–255 channel values. -/
def relative_luminance (c : RGB) : ℚ :=
  0.2126 * (c.1 : ℚ) + 0.7152 * (c.2.1 : ℚ) + 0.0722 * (c.2.2 : ℚ)

/-- First element of the input list of minimal `relative_luminance`:
this is exactly `sorted(rgb_colors, key=relative_luminance)[0]` of the
source (Python's sort is stable, so ties go to the earlier element), and
`none` exactly when the list is empty, where the source raises an uncaught
`IndexError`. -/
def darkestColor : List RGB → Option RGB
  | [] => none
  | x :: xs =>
      some (xs.foldl (fun acc y =>
        if relative_luminance y < relative_luminance acc then y else acc) x)

/-- The fixed VIBGYOR candidate palette of `recommend_contrasting_color`,
in the insertion order of the source's `rainbow_colors` dict. -/
def rainbow_colors : List (String × String) :=
  [("Violet", "#8a2be2"), ("Indigo", "#4b0082"), ("Blue", "#0000ff"),
   ("Green", "#00ff00"), ("Yellow", "#ffff00"), ("Orange", "#ffa500"),
   ("Red", "#ff0000")]

/-- The quantity `abs(relative_luminance(darkest_color) - relative_luminance(rgb_color))`
computed by the source for each candidate. -/
def luminance_diff (d c : RGB) : ℚ :=
  |relative_luminance d - relative_luminance c|

/-- One iteration of the source's rainbow loop: if the candidate's luminance
differs from the darkest color's by more than `0.5`, overwrite the tentative
selection and record the candidate's justification; otherwise keep the state.
The state is the pair of the tentative `contrast_color` and the `reasons`
association list. -/
def rainbowStep (d : RGB) (st : Option String × List (String × String))
    (p : String × String) : Option String × List (String × String) :=
  if luminance_diff d (hex_to_rgb p.2) > 0.5 then
    (some p.2,
     st.2 ++ [(p.2, p.1 ++ " is a vibrant color that contrasts well with the website's primary colors.")])
  else st

/-- The whole rainbow loop of `recommend_contrasting_color`, starting from
`contrast_color = None` and empty `reasons`. -/
def rainbowPass (d : RGB) : Option String × List (String × String) :=
  rainbow_colors.foldl (rainbowStep d) (none, [])

/-- The fixed justification recorded for white. -/
def whiteReason : String :=
  "White is a classic choice that ensures high contrast and readability."

/-- The fixed justification recorded for black. -/
def blackReason : String :=
  "Black is a versatile choice that enhances readability and visual appeal."

/-- Embedding of `recommend_contrasting_color`: find the darkest input color
(`none`, modelling the source's uncaught `IndexError`, when the palette is
empty), run the rainbow loop, then the white check, else the black check,
then fall back to the default `#28a745`; return the chosen color together
with `reasons.get(contrast_color, 'Default choice for contrast')`. -/
def recommend_contrasting_color (existing_colors : List String) :
    Option (String × String) :=
  let rgb_colors := existing_colors.map hex_to_rgb
  match darkestColor rgb_colors with
  | none => none
  | some darkest_color =>
    let st := rainbowPass darkest_color
    let st2 :=
      if luminance_diff darkest_color (255, 255, 255) > 0.5 then
        (some "#ffffff", st.2 ++ [("#ffffff", whiteReason)])
      else if luminance_diff darkest_color (0, 0, 0) > 0.5 then
        (some "#000000", st.2 ++ [("#000000", blackReason)])
      else st
    let contrast_color := st2.1.getD "#28a745"
    some (contrast_color,
      (st2.2.lookup contrast_color).getD "Default choice for contrast")

/-- First-occurrence deduplication with an accumulator of already-seen
elements; `dedupFirst` below embeds Python's `set(...)` / `list(set(...))`
(whose enumeration order is unspecified) by keeping the first occurrence of
each element. -/
def dedupFirstAux (seen : List String) : List String → List String
  | [] => []
  | x :: xs =>
      if x ∈ seen then dedupFirstAux seen xs
      else x :: dedupFirstAux (x :: seen) xs

/-- First-occurrence deduplication of a list of strings. -/
def dedupFirst (l : List String) : List String := dedupFirstAux [] l

/-- Embedding of `recommend_button_color`: the button-colors argument is
accepted but never used; the recommendation is computed from the primary
palette alone (`set(primary_colors)` fed to `recommend_contrasting_color`). -/
def recommend_button_color (primary_colors button_colors : List String) :
    Option (String × String) :=
  recommend_contrasting_color (dedupFirst primary_colors)

/-- A character counts as a hexadecimal digit for the source's regex
character class `[0-9a-fA-F]`. -/
def isHexDigit (c : Char) : Bool :=
  decide ((48 ≤ c.toNat ∧ c.toNat ≤ 57) ∨ (97 ≤ c.toNat ∧ c.toNat ≤ 102) ∨
    (65 ≤ c.toNat ∧ c.toNat ≤ 70))

/-- A word character for the regex word-boundary `\b` (ASCII reading of
Python's `\w`): letters, digits, underscore. -/
def wordChar (c : Char) : Bool := c.isAlphanum || c == '_'

/-- The word boundary `\b` holds after a hex digit exactly when the next
character is absent or is not a word character. -/
def boundaryOk : List Char → Bool
  | [] => true
  | c :: _ => !(wordChar c)

/-- Take exactly `n` leading hexadecimal digits, returning them and the
remaining text, or `none` if fewer are available. -/
def takeHex : ℕ → List Char → Option (List Char × List Char)
  | 0, l => some ([], l)
  | _ + 1, [] => none
  | n + 1, c :: l =>
      if isHexDigit c then (takeHex n l).map (fun p => (c :: p.1, p.2)) else none

/-- Attempt to match the source's color-token regex `#(?:[0-9a-fA-F]{3}){1,2}\b`
at the current position: a `#` followed by six hex digits and a word
boundary, or (backtracking the greedy `{1,2}`) three hex digits and a word
boundary.  Returns the matched token and the remaining text. -/
def matchHexToken (l : List Char) : Option (List Char × List Char) :=
  match l with
  | c :: rest =>
    if c == '#' then
      match takeHex 6 rest with
      | some (ds, rest6) =>
        if boundaryOk rest6 then some ('#' :: ds, rest6)
        else
          match takeHex 3 rest with
          | some (ds3, rest3) =>
              if boundaryOk rest3 then some ('#' :: ds3, rest3) else none
          | none => none
      | none =>
        match takeHex 3 rest with
        | some (ds3, rest3) =>
            if boundaryOk rest3 then some ('#' :: ds3, rest3) else none
        | none => none
    else none
  | [] => none

/-- Left-to-right non-overlapping scan for color tokens (`re.findall` with the
pattern above): try a match at each position; on success continue after the
match, on failure advance one character.  `fuel` bounds the recursion and is
instantiated with the text length, which suffices because every step consumes
at least one character. -/
def scanHexF : ℕ → List Char → List (List Char)
  | 0, _ => []
  | _ + 1, [] => []
  | fuel + 1, c :: rest =>
    match matchHexToken (c :: rest) with
    | some (t, r) => t :: scanHexF fuel r
    | none => scanHexF fuel rest

/-- All color tokens of a text, in order of occurrence. -/
def scanHex (l : List Char) : List (List Char) := scanHexF l.length l

/-- Embedding of `expand_color_shorthand`: a string starting with `#` and of
length 4 has each of its three digits doubled; anything else is returned
unchanged.  Case is preserved. -/
def expand_color_shorthand (color : String) : String :=
  match color.data with
  | ['#', a, b, c] => String.mk ['#', a, a, b, b, c, c]
  | _ => color

/-- Embedding of `extract_colors`: find all color tokens of the text and
expand each shorthand token. -/
def extract_colors (css_content : String) : List String :=
  (scanHex css_content.data).map (fun t => expand_color_shorthand (String.mk t))

/-- A string of the shape the spec calls a 6-digit hex color: the marker `#`
followed by exactly six hexadecimal digits (either case). -/
def isSixDigitHex (s : String) : Bool :=
  match s.data with
  | '#' :: ds => (ds.length == 6) && ds.all isHexDigit
  | _ => false

/-- ASCII lowercasing of a string (Python's `str.lower` on the ASCII inputs
handled here), written on the character list so that it evaluates by kernel
reduction. -/
def lowerStr (s : String) : String := String.mk (s.data.map Char.toLower)

/-- The colors filtered out by `get_top_colors` before counting. -/
def bannedColors : List String := ["#fff", "#ffffff", "#000", "#000000"]

/-- Stable insertion (descending by count) used to embed the stable
descending sort of `Counter.most_common`: an element is placed before the
first entry whose count is not larger, so earlier-inserted entries win ties. -/
def insertByCountDesc (x : String × ℕ) : List (String × ℕ) → List (String × ℕ)
  | [] => [x]
  | y :: ys => if y.2 ≤ x.2 then x :: y :: ys else y :: insertByCountDesc x ys

/-- Stable sort, descending by count (`Counter.most_common` without the
count cutoff). -/
def sortByCountDesc : List (String × ℕ) → List (String × ℕ)
  | [] => []
  | x :: xs => insertByCountDesc x (sortByCountDesc xs)

/-- Embedding of `get_top_colors`: drop pure white and black (3- and 6-digit
forms, compared lowercased), count occurrences per distinct color in first
appearance order (`Counter`), sort descending by count (stable), and return
the first `num_colors` colors. -/
def get_top_colors (colors : List String) (num_colors : ℕ) : List String :=
  let kept := colors.filter (fun c => !(bannedColors.contains (lowerStr c)))
  let keys := dedupFirst kept
  let items := keys.map (fun k => (k, kept.count k))
  ((sortByCountDesc items).take num_colors).map Prod.fst

/-- Whitespace for the regex `\s` (ASCII reading). -/
def wsChar (c : Char) : Bool :=
  c == ' ' || c == '\t' || c == '\n' || c == '\r' || c.toNat == 11 || c.toNat == 12

/-- Case-insensitive match of the six characters of the literal `button`
(the regex is compiled with `re.IGNORECASE`). -/
def ciEqButton (c1 c2 c3 c4 c5 c6 : Char) : Bool :=
  c1.toLower == 'b' && c2.toLower == 'u' && c3.toLower == 't' &&
  c4.toLower == 't' && c5.toLower == 'o' && c6.toLower == 'n'

/-- Attempt to match the source's rule-block regex `button\s*{[^}]*}`
(case-insensitive) at the current position: the literal `button`, optional
whitespace, `{`, a body free of `}`, and the closing `}`.  Returns the
matched substring and the remaining text. -/
def matchButtonBlock (l : List Char) : Option (List Char × List Char) :=
  match l with
  | c1 :: c2 :: c3 :: c4 :: c5 :: c6 :: rest =>
    if ciEqButton c1 c2 c3 c4 c5 c6 then
      let ws := rest.takeWhile wsChar
      match rest.dropWhile wsChar with
      | '{' :: rest3 =>
        let body := rest3.takeWhile (fun c => !(c == '}'))
        match rest3.dropWhile (fun c => !(c == '}')) with
        | '}' :: rest4 =>
            some (c1 :: c2 :: c3 :: c4 :: c5 :: c6 :: (ws ++ '{' :: (body ++ ['}'])), rest4)
        | _ => none
      | _ => none
    else none
  | _ => none

/-- Left-to-right non-overlapping scan for `button`-rule blocks (`re.findall`
with the pattern above), with the same fuel discipline as `scanHexF`. -/
def buttonBlocksF : ℕ → List Char → List (List Char)
  | 0, _ => []
  | _ + 1, [] => []
  | fuel + 1, c :: rest =>
    match matchButtonBlock (c :: rest) with
    | some (b, r) => b :: buttonBlocksF fuel r
    | none => buttonBlocksF fuel rest

/-- All substrings of a text matched by the rule-block regex. -/
def buttonBlocks (l : List Char) : List (List Char) := buttonBlocksF l.length l

/-- Shape of a matched rule block: six characters spelling `button`
case-insensitively, then (after optional whitespace) `{`, a body with no
`}`, and the final `}`. -/
def isButtonBlockB (b : List Char) : Bool :=
  match b with
  | c1 :: c2 :: c3 :: c4 :: c5 :: c6 :: rest =>
    ciEqButton c1 c2 c3 c4 c5 c6 &&
    (match rest.dropWhile wsChar with
     | '{' :: r3 => (r3.getLast? == some '}') && r3.dropLast.all (fun c => !(c == '}'))
     | _ => false)
  | _ => false

/-- Embedding of `extract_button_colors`.  The first pass collects the color
tokens of the `style` attribute values of the page's button/anchor/input
elements; since the HTML parsing itself is done by the external BeautifulSoup
collaborator, that pass receives the list of those attribute values as
`inline_styles`.  The second pass collects color tokens inside each matched
`button` rule block of each stylesheet.  All tokens are then expanded,
deduplicated (`list(set(...))`, embedded as first-occurrence deduplication),
and capped at 4. -/
def extract_button_colors (inline_styles css_contents : List String) : List String :=
  let inline := inline_styles.flatMap (fun s => (scanHex s.data).map String.mk)
  let fromCss := css_contents.flatMap
    (fun s => (buttonBlocks s.data).flatMap (fun b => (scanHex b).map String.mk))
  (dedupFirst ((inline ++ fromCss).map expand_color_shorthand)).take 4

/-- Spec-side reading (from the spec's words, for comparison with the loop
of the source): the LAST entry of the candidate list whose luminance
differs from the darkest color's by more than the threshold — an entry
counts only if no later entry qualifies. -/
def lastQualifying (d : RGB) : List (String × String) → Option String
  | [] => none
  | p :: ps =>
      (lastQualifying d ps).or
        (if luminance_diff d (hex_to_rgb p.2) > 0.5 then some p.2 else none)

/-- The last qualifying candidate of the fixed order violet, indigo, blue,
green, yellow, orange, red, if any. -/
def lastQualifyingRainbow (d : RGB) : Option String :=
  lastQualifying d rainbow_colors

lemma hexDigitVal_le (c : Char) : hexDigitVal c ≤ 15 := by
  unfold hexDigitVal
  split_ifs <;> omega

lemma hexPairVal_le (l : List Char) (i : ℕ) : hexPairVal l i ≤ 255 := by
  have h1 := hexDigitVal_le (l.getD i '0')
  have h2 := hexDigitVal_le (l.getD (i + 1) '0')
  unfold hexPairVal
  omega

lemma hex_to_rgb_le (s : String) :
    (hex_to_rgb s).1 ≤ 255 ∧ (hex_to_rgb s).2.1 ≤ 255 ∧ (hex_to_rgb s).2.2 ≤ 255 :=
  ⟨hexPairVal_le _ _, hexPairVal_le _ _, hexPairVal_le _ _⟩

lemma relative_luminance_nonneg (c : RGB) : 0 ≤ relative_luminance c := by
  unfold relative_luminance
  positivity

lemma relative_luminance_le (c : RGB) (h1 : c.1 ≤ 255) (h2 : c.2.1 ≤ 255)
    (h3 : c.2.2 ≤ 255) : relative_luminance c ≤ 255 := by
  unfold relative_luminance
  have g1 : (c.1 : ℚ) ≤ 255 := by exact_mod_cast h1
  have g2 : (c.2.1 : ℚ) ≤ 255 := by exact_mod_cast h2
  have g3 : (c.2.2 : ℚ) ≤ 255 := by exact_mod_cast h3
  linarith

lemma lum_white : relative_luminance (255, 255, 255) = 255 := by
  norm_num [relative_luminance]

lemma lum_black : relative_luminance (0, 0, 0) = 0 := by
  norm_num [relative_luminance]

lemma foldl_min_mem (xs : List RGB) (x : RGB) :
    xs.foldl (fun acc y =>
      if relative_luminance y < relative_luminance acc then y else acc) x = x ∨
    xs.foldl (fun acc y =>
      if relative_luminance y < relative_luminance acc then y else acc) x ∈ xs := by
  induction xs generalizing x with
  | nil => exact Or.inl rfl
  | cons y ys ih =>
    rw [List.foldl_cons]
    rcases ih (if relative_luminance y < relative_luminance x then y else x) with h | h
    · rw [h]
      split_ifs with hc
      · exact Or.inr (List.mem_cons_self _ _)
      · exact Or.inl rfl
    · exact Or.inr (List.mem_cons_of_mem _ h)

lemma darkest_mem (l : List RGB) (d : RGB) (h : darkestColor l = some d) : d ∈ l := by
  cases l with
  | nil => simp [darkestColor] at h
  | cons x xs =>
    simp only [darkestColor, Option.some.injEq] at h
    rcases foldl_min_mem xs x with h' | h'
    · rw [← h, h']
      exact List.mem_cons_self _ _
    · rw [← h]
      exact List.mem_cons_of_mem _ h'

lemma darkest_bounds (colors : List String) (d : RGB)
    (h : darkestColor (colors.map hex_to_rgb) = some d) :
    0 ≤ relative_luminance d ∧ relative_luminance d ≤ 255 := by
  obtain ⟨s, _, hd⟩ := List.mem_map.mp (darkest_mem _ _ h)
  subst hd
  exact ⟨relative_luminance_nonneg _,
    relative_luminance_le _ (hex_to_rgb_le s).1 (hex_to_rgb_le s).2.1 (hex_to_rgb_le s).2.2⟩

lemma white_diff_eq (d : RGB) (hle : relative_luminance d ≤ 255) :
    luminance_diff d (255, 255, 255) = 255 - relative_luminance d := by
  unfold luminance_diff
  rw [lum_white, abs_of_nonpos (by linarith), neg_sub]

lemma black_diff_eq (d : RGB) (h0 : 0 ≤ relative_luminance d) :
    luminance_diff d (0, 0, 0) = relative_luminance d := by
  unfold luminance_diff
  rw [lum_black, sub_zero, abs_of_nonneg h0]

lemma rainbow_fold_keys (d : RGB) (k v : String) (ps : List (String × String)) :
    ∀ st : Option String × List (String × String),
      (k, v) ∈ (ps.foldl (rainbowStep d) st).2 → (k, v) ∈ st.2 ∨ k ∈ ps.map Prod.snd := by
  induction ps with
  | nil => exact fun st h => Or.inl h
  | cons p ps ih =>
    intro st h
    rw [List.foldl_cons] at h
    rcases ih (rainbowStep d st p) h with h' | h'
    · unfold rainbowStep at h'
      split_ifs at h' with hc
      · rcases List.mem_append.mp h' with h2 | h2
        · exact Or.inl h2
        · simp only [List.mem_singleton, Prod.mk.injEq] at h2
          exact Or.inr (by simp [h2.1])
      · exact Or.inl h'
    · exact Or.inr (by simp [List.map_cons, h'])

lemma rainbowPass_keys (d : RGB) (k v : String)
    (h : (k, v) ∈ (rainbowPass d).2) : k ∈ rainbow_colors.map Prod.snd := by
  rcases rainbow_fold_keys d k v rainbow_colors (none, []) h with h' | h'
  · simp at h'
  · exact h'

lemma lookup_append_fresh (l : List (String × String)) (k v : String)
    (h : ∀ p ∈ l, p.1 ≠ k) : (l ++ [(k, v)]).lookup k = some v := by
  induction l with
  | nil => simp [List.lookup]
  | cons a l ih =>
    obtain ⟨a1, a2⟩ := a
    have ha : a1 ≠ k := h (a1, a2) (List.mem_cons_self _ _)
    have hb : (k == a1) = false := beq_eq_false_iff_ne.mpr (Ne.symm ha)
    simpa [List.lookup, hb] using ih (fun p hp => h p (List.mem_cons_of_mem _ hp))

lemma rainbowPass_fresh_white (d : RGB) :
    ∀ p ∈ (rainbowPass d).2, p.1 ≠ "#ffffff" := by
  intro p hp he
  have hk : p.1 ∈ rainbow_colors.map Prod.snd := rainbowPass_keys d p.1 p.2 (by simpa using hp)
  rw [he] at hk
  revert hk
  decide

lemma rainbowPass_fresh_black (d : RGB) :
    ∀ p ∈ (rainbowPass d).2, p.1 ≠ "#000000" := by
  intro p hp he
  have hk : p.1 ∈ rainbow_colors.map Prod.snd := rainbowPass_keys d p.1 p.2 (by simpa using hp)
  rw [he] at hk
  revert hk
  decide

/-- Case analysis of `recommend_contrasting_color` on a nonempty palette:
the result is the white pair when white passes the `> 0.5` test against the
darkest color, and the black pair otherwise (black then necessarily passes). -/
lemma recommend_cases (colors : List String) (d : RGB)
    (h : darkestColor (colors.map hex_to_rgb) = some d) :
    recommend_contrasting_color colors =
      if luminance_diff d (255, 255, 255) > 0.5 then some ("#ffffff", whiteReason)
      else some ("#000000", blackReason) := by
  obtain ⟨h0, hle⟩ := darkest_bounds colors d h
  simp only [recommend_contrasting_color, h]
  split_ifs with h1 h2
  · show some ("#ffffff",
        (List.lookup "#ffffff" ((rainbowPass d).2 ++ [("#ffffff", whiteReason)])).getD
          "Default choice for contrast") = some ("#ffffff", whiteReason)
    rw [lookup_append_fresh _ _ _ (rainbowPass_fresh_white d)]
    rfl
  · show some ("#000000",
        (List.lookup "#000000" ((rainbowPass d).2 ++ [("#000000", blackReason)])).getD
          "Default choice for contrast") = some ("#000000", blackReason)
    rw [lookup_append_fresh _ _ _ (rainbowPass_fresh_black d)]
    rfl
  · exfalso
    apply h2
    rw [black_diff_eq d h0]
    rw [white_diff_eq d hle] at h1
    have : 255 - relative_luminance d ≤ 0.5 := not_lt.mp h1
    linarith

lemma rainbow_fold_sel (d : RGB) (ps : List (String × String)) :
    ∀ st : Option String × List (String × String),
      (ps.foldl (rainbowStep d) st).1 = (lastQualifying d ps).or st.1 := by
  induction ps with
  | nil => intro st; rfl
  | cons p ps ih =>
    intro st
    have hstep : (rainbowStep d st p).1 =
        (if luminance_diff d (hex_to_rgb p.2) > 0.5 then some p.2 else none).or st.1 := by
      by_cases hq : luminance_diff d (hex_to_rgb p.2) > 0.5
      · rw [rainbowStep, if_pos hq, if_pos hq]
        rfl
      · rw [rainbowStep, if_neg hq, if_neg hq]
        rfl
    rw [List.foldl_cons, ih (rainbowStep d st p), hstep, lastQualifying, Option.or_assoc]

lemma or_none_eq (a : Option String) : a.or none = a := by
  cases a with
  | none => rfl
  | some v => rfl

lemma rainbowPass_sel (d : RGB) : (rainbowPass d).1 = lastQualifyingRainbow d := by
  rw [rainbowPass, rainbow_fold_sel d rainbow_colors (none, [])]
  exact or_none_eq _

/-- C2: on an empty input palette, `recommend_contrasting_color` reaches the
unguarded `sorted_colors[0]` indexing, embedded as the `none` result: the
source raises an uncaught `IndexError` ("list index out of range") instead
of reporting the explicit, guarded "empty palette" condition the claim
describes. -/
theorem C2_empty_palette_unguarded : recommend_contrasting_color [] = none := rfl

/-- C7: on the single-element palette `["#000000"]` the recommender selects
white together with white's fixed justification string. -/
theorem C7_black_palette_gets_white :
    recommend_contrasting_color ["#000000"] = some ("#ffffff", whiteReason) := by
  have e : darkestColor (["#000000"].map hex_to_rgb) = some (0, 0, 0) := by decide
  rw [recommend_cases ["#000000"] (0, 0, 0) e,
    if_pos (by norm_num [luminance_diff, relative_luminance] :
      luminance_diff (0, 0, 0) (255, 255, 255) > 0.5)]

/-- C9: `recommend_button_color` ignores its button-colors argument
entirely: the recommendation (color and justification) is the same for any
two button palettes. -/
theorem C9_button_colors_no_influence (primary b1 b2 : List String) :
    recommend_button_color primary b1 = recommend_button_color primary b2 := rfl

/-- C4: for every non-empty palette of 6-digit hex colors, the final result
is the white pair exactly when the darkest color's luminance is below 254.5
and the black pair otherwise; a rainbow candidate or the default `#28a745`
is never the final result. -/
theorem C4_result_always_white_or_black (colors : List String) (d : RGB)
    (hhex : ∀ c ∈ colors, isSixDigitHex c = true)
    (h : darkestColor (colors.map hex_to_rgb) = some d) :
    (recommend_contrasting_color colors =
      if relative_luminance d < 254.5 then some ("#ffffff", whiteReason)
      else some ("#000000", blackReason)) ∧
    ∀ r, recommend_contrasting_color colors = some r →
      r.1 ≠ "#28a745" ∧ ∀ p ∈ rainbow_colors, r.1 ≠ p.2 := by
  obtain ⟨h0, hle⟩ := darkest_bounds colors d h
  have hmain : recommend_contrasting_color colors =
      if relative_luminance d < 254.5 then some ("#ffffff", whiteReason)
      else some ("#000000", blackReason) := by
    rw [recommend_cases colors d h, white_diff_eq d hle]
    by_cases hc : relative_luminance d < 254.5
    · rw [if_pos hc, if_pos (by linarith)]
    · rw [if_neg hc, if_neg (by push_neg at hc ⊢; linarith)]
  refine ⟨hmain, fun r hr => ?_⟩
  rw [hmain] at hr
  split_ifs at hr with hc <;>
    [(replace hr : ("#ffffff", whiteReason) = r := Option.some.inj hr);
     (replace hr : ("#000000", blackReason) = r := Option.some.inj hr)] <;>
    rw [← hr] <;> exact ⟨by decide, by decide⟩

/-- C4 witness: on the concrete palette `["#123456"]` the theorem applies
and the recommendation evaluates to the white pair. -/
theorem C4_witness :
    recommend_contrasting_color ["#123456"] = some ("#ffffff", whiteReason) := by
  have h := (C4_result_always_white_or_black ["#123456"] (18, 52, 86)
    (by decide) (by decide)).1
  rw [h, if_pos (by norm_num [relative_luminance] :
    relative_luminance (18, 52, 86) < 254.5)]

/-- C1 counterexample: on the palette `["#fefefe"]` (darkest luminance 254)
the white candidate is selected even though its luminance differs from the
darkest color's by only 1, which does not exceed 50: the claimed threshold
of 50 does not describe the code's qualification test. -/
theorem C1_counterexample :
    recommend_contrasting_color ["#fefefe"] = some ("#ffffff", whiteReason) ∧
    ¬ luminance_diff (hex_to_rgb "#fefefe") (255, 255, 255) > 50 := by
  constructor
  · have e : darkestColor (["#fefefe"].map hex_to_rgb) = some (254, 254, 254) := by
      decide
    rw [recommend_cases ["#fefefe"] (254, 254, 254) e,
      if_pos (by norm_num [luminance_diff, relative_luminance] :
        luminance_diff (254, 254, 254) (255, 255, 255) > 0.5)]
  · rw [(by decide : hex_to_rgb "#fefefe" = (254, 254, 254))]
    norm_num [luminance_diff, relative_luminance]

/-- C1 (amended): for every non-empty palette of 6-digit hex colors, a
candidate qualifies for selection exactly when its luminance differs from
the darkest color's by more than 0.5 — not 50: each rainbow candidate's
loop iteration overwrites the tentative selection with that candidate iff
the 0.5 test passes, the final result is white iff white passes the 0.5
test, and it is black iff white fails it and black passes it. -/
theorem C1_threshold_is_half (colors : List String) (d : RGB)
    (hhex : ∀ c ∈ colors, isSixDigitHex c = true)
    (h : darkestColor (colors.map hex_to_rgb) = some d) :
    (∀ p ∈ rainbow_colors,
      ((∀ st, (rainbowStep d st p).1 = some p.2) ↔
        luminance_diff d (hex_to_rgb p.2) > 0.5)) ∧
    ∀ r, recommend_contrasting_color colors = some r →
      ((r.1 = "#ffffff" ↔ luminance_diff d (255, 255, 255) > 0.5) ∧
       (r.1 = "#000000" ↔
         (¬ luminance_diff d (255, 255, 255) > 0.5 ∧
          luminance_diff d (0, 0, 0) > 0.5))) := by
  obtain ⟨h0, hle⟩ := darkest_bounds colors d h
  constructor
  · intro p hp
    constructor
    · intro hall
      by_contra hno
      have hnone := hall (none, [])
      unfold rainbowStep at hnone
      rw [if_neg hno] at hnone
      exact Option.noConfusion hnone
    · intro hq st
      unfold rainbowStep
      rw [if_pos hq]
  · intro r hr
    rw [recommend_cases colors d h] at hr
    split_ifs at hr with h1
    · replace hr : ("#ffffff", whiteReason) = r := Option.some.inj hr
      rw [← hr]
      exact ⟨⟨fun _ => h1, fun _ => rfl⟩,
        ⟨fun he => absurd he (by decide), fun hc => absurd h1 hc.1⟩⟩
    · replace hr : ("#000000", blackReason) = r := Option.some.inj hr
      have h2 : luminance_diff d (0, 0, 0) > 0.5 := by
        rw [black_diff_eq d h0]
        rw [white_diff_eq d hle] at h1
        have := not_lt.mp h1
        linarith
      rw [← hr]
      exact ⟨⟨fun he => absurd he (by decide), fun hc => absurd hc h1⟩,
        ⟨fun _ => ⟨h1, h2⟩, fun _ => rfl⟩⟩

/-- C1 witness: applying the theorem to the palette `["#000000"]` and the
violet candidate shows that violet's loop iteration selects it (its
luminance difference from black, about 76.4, exceeds 0.5). -/
theorem C1_witness :
    (rainbowStep (0, 0, 0) (none, []) ("Violet", "#8a2be2")).1 = some "#8a2be2" := by
  have hq : luminance_diff (0, 0, 0) (hex_to_rgb "#8a2be2") > 0.5 := by
    rw [(by decide : hex_to_rgb "#8a2be2" = (138, 43, 226))]
    norm_num [luminance_diff, relative_luminance, abs_of_nonneg]
  exact ((C1_threshold_is_half ["#000000"] (0, 0, 0) (by decide) (by decide)).1
    ("Violet", "#8a2be2") (by decide)).mpr hq (none, [])

/-- C5: the rainbow pass's tentative selection is the LAST candidate of the
fixed order violet, indigo, blue, green, yellow, orange, red that passes
the contrast test (each later qualifier overwrites the earlier one); after
the rainbow pass, a qualifying white overrides any rainbow selection, and
black is the result only when white does not qualify and black does. -/
theorem C5_last_qualifier_wins (colors : List String) (d : RGB)
    (hhex : ∀ c ∈ colors, isSixDigitHex c = true)
    (h : darkestColor (colors.map hex_to_rgb) = some d) :
    (rainbowPass d).1 = lastQualifyingRainbow d ∧
    ∀ r, recommend_contrasting_color colors = some r →
      ((luminance_diff d (255, 255, 255) > 0.5 → r.1 = "#ffffff") ∧
       (¬ luminance_diff d (255, 255, 255) > 0.5 →
         luminance_diff d (0, 0, 0) > 0.5 → r.1 = "#000000")) := by
  refine ⟨rainbowPass_sel d, fun r hr => ?_⟩
  rw [recommend_cases colors d h] at hr
  split_ifs at hr with h1
  · replace hr : ("#ffffff", whiteReason) = r := Option.some.inj hr
    rw [← hr]
    exact ⟨fun _ => rfl, fun hn _ => absurd h1 hn⟩
  · replace hr : ("#000000", blackReason) = r := Option.some.inj hr
    rw [← hr]
    exact ⟨fun hw => absurd hw h1, fun _ _ => rfl⟩

/-- C5 witness: applying the theorem to the palette `["#111111"]` shows the
rainbow pass selecting the last qualifying candidate for darkest color
`(17, 17, 17)`. -/
theorem C5_witness :
    (rainbowPass (17, 17, 17)).1 = lastQualifyingRainbow (17, 17, 17) :=
  (C5_last_qualifier_wins ["#111111"] (17, 17, 17) (by decide) (by decide)).1

lemma takeHex_shape :
    ∀ (n : ℕ) (l ds r : List Char), takeHex n l = some (ds, r) →
      ds.length = n ∧ ds.all isHexDigit = true := by
  intro n
  induction n with
  | zero =>
    intro l ds r h
    simp only [takeHex, Option.some.injEq, Prod.mk.injEq] at h
    simp [← h.1]
  | succ n ih =>
    intro l ds r h
    cases l with
    | nil => simp [takeHex] at h
    | cons c l' =>
      simp only [takeHex] at h
      split_ifs at h with hc
      · cases hm : takeHex n l' with
        | none => rw [hm] at h; simp at h
        | some p =>
          rw [hm] at h
          simp only [Option.map_some', Option.some.injEq, Prod.mk.injEq] at h
          obtain ⟨hds, _⟩ := h
          obtain ⟨hlen, hall⟩ := ih l' p.1 p.2 (by rw [hm])
          rw [← hds]
          simp [List.all_cons, hc, hall, hlen]

lemma matchHexToken_shape (l t r : List Char) (h : matchHexToken l = some (t, r)) :
    ∃ ds, t = '#' :: ds ∧ ds.all isHexDigit = true ∧ (ds.length = 3 ∨ ds.length = 6) := by
  cases l with
  | nil => simp [matchHexToken] at h
  | cons c rest =>
    simp only [matchHexToken] at h
    split_ifs at h with hc
    · split at h
      · rename_i ds6 rest6 heq6
        split_ifs at h with hb6
        · simp only [Option.some.injEq, Prod.mk.injEq] at h
          exact ⟨ds6, h.1.symm, (takeHex_shape 6 rest ds6 rest6 heq6).2,
            Or.inr (takeHex_shape 6 rest ds6 rest6 heq6).1⟩
        · split at h
          · rename_i ds3 rest3 heq3
            split_ifs at h with hb3
            · simp only [Option.some.injEq, Prod.mk.injEq] at h
              exact ⟨ds3, h.1.symm, (takeHex_shape 3 rest ds3 rest3 heq3).2,
                Or.inl (takeHex_shape 3 rest ds3 rest3 heq3).1⟩
          · simp at h
      · split at h
        · rename_i ds3 rest3 heq3
          split_ifs at h with hb3
          · simp only [Option.some.injEq, Prod.mk.injEq] at h
            exact ⟨ds3, h.1.symm, (takeHex_shape 3 rest ds3 rest3 heq3).2,
              Or.inl (takeHex_shape 3 rest ds3 rest3 heq3).1⟩
        · simp at h

lemma scanHexF_shape :
    ∀ (fuel : ℕ) (l t : List Char), t ∈ scanHexF fuel l →
      ∃ ds, t = '#' :: ds ∧ ds.all isHexDigit = true ∧ (ds.length = 3 ∨ ds.length = 6) := by
  intro fuel
  induction fuel with
  | zero => intro l t h; simp [scanHexF] at h
  | succ fuel ih =>
    intro l t h
    cases l with
    | nil => simp [scanHexF] at h
    | cons c rest =>
      rw [scanHexF] at h
      cases hm : matchHexToken (c :: rest) with
      | some p =>
        rw [hm] at h
        rcases List.mem_cons.mp h with h1 | h1
        · exact h1 ▸ matchHexToken_shape (c :: rest) p.1 p.2 (by rw [hm])
        · exact ih p.2 t h1
      | none =>
        rw [hm] at h
        exact ih rest t h

lemma scanHex_shape (l t : List Char) (h : t ∈ scanHex l) :
    ∃ ds, t = '#' :: ds ∧ ds.all isHexDigit = true ∧ (ds.length = 3 ∨ ds.length = 6) :=
  scanHexF_shape l.length l t h

lemma expand_token_six (t ds : List Char) (ht : t = '#' :: ds)
    (hall : ds.all isHexDigit = true) (hlen : ds.length = 3 ∨ ds.length = 6) :
    isSixDigitHex (expand_color_shorthand (String.mk t)) = true := by
  subst ht
  rcases hlen with h3 | h6
  · obtain ⟨a, b, c, rfl⟩ := List.length_eq_three.mp h3
    simp only [List.all_cons, Bool.and_eq_true] at hall
    simp [expand_color_shorthand, isSixDigitHex, String.mk, List.all_cons, hall]
  · rcases ds with _ | ⟨a, _ | ⟨b, _ | ⟨c, _ | ⟨d, tl⟩⟩⟩⟩ <;>
      simp only [List.length_cons, List.length_nil] at h6 <;>
      first
      | omega
      | · simp only [List.all_cons, Bool.and_eq_true] at hall
          simp [expand_color_shorthand, isSixDigitHex, String.mk, List.all_cons, hall]
          omega

lemma dedupFirstAux_sub (l : List String) :
    ∀ (seen : List String) (c : String), c ∈ dedupFirstAux seen l → c ∈ l := by
  induction l with
  | nil => intro seen c h; simp [dedupFirstAux] at h
  | cons x xs ih =>
    intro seen c h
    rw [dedupFirstAux] at h
    split_ifs at h with hx
    · exact List.mem_cons_of_mem _ (ih seen c h)
    · rcases List.mem_cons.mp h with h1 | h1
      · exact h1 ▸ List.mem_cons_self _ _
      · exact List.mem_cons_of_mem _ (ih (x :: seen) c h1)

lemma dedupFirstAux_nodup (l : List String) :
    ∀ seen : List String,
      (dedupFirstAux seen l).Nodup ∧ ∀ c ∈ dedupFirstAux seen l, c ∉ seen := by
  induction l with
  | nil => intro seen; simp [dedupFirstAux]
  | cons x xs ih =>
    intro seen
    rw [dedupFirstAux]
    split_ifs with hx
    · exact ih seen
    · obtain ⟨hn, hs⟩ := ih (x :: seen)
      refine ⟨List.nodup_cons.mpr ⟨fun hmem => ?_, hn⟩, fun c hc => ?_⟩
      · exact (hs x hmem) (List.mem_cons_self _ _)
      · rcases List.mem_cons.mp hc with h1 | h1
        · exact h1 ▸ hx
        · exact fun hcs => (hs c h1) (List.mem_cons_of_mem _ hcs)

lemma dedupFirst_sub (l : List String) (c : String) (h : c ∈ dedupFirst l) : c ∈ l :=
  dedupFirstAux_sub l [] c h

lemma dedupFirst_nodup (l : List String) : (dedupFirst l).Nodup :=
  (dedupFirstAux_nodup l []).1

lemma insertByCountDesc_perm (x : String × ℕ) (l : List (String × ℕ)) :
    (insertByCountDesc x l).Perm (x :: l) := by
  induction l with
  | nil => exact List.Perm.refl _
  | cons y ys ih =>
    rw [insertByCountDesc]
    split_ifs with hc
    · exact List.Perm.refl _
    · exact (ih.cons y).trans (List.Perm.swap x y ys)

lemma sortByCountDesc_perm (l : List (String × ℕ)) : (sortByCountDesc l).Perm l := by
  induction l with
  | nil => exact List.Perm.refl _
  | cons x xs ih =>
    rw [sortByCountDesc]
    exact (insertByCountDesc_perm x (sortByCountDesc xs)).trans (ih.cons x)

lemma get_top_colors_mem (colors : List String) (n : ℕ) (c : String)
    (h : c ∈ get_top_colors colors n) :
    c ∈ colors ∧ lowerStr c ∉ bannedColors := by
  simp only [get_top_colors] at h
  obtain ⟨p, hp, hpc⟩ := List.mem_map.mp h
  have hp2 : p ∈ sortByCountDesc
      ((dedupFirst (colors.filter fun c => !bannedColors.contains (lowerStr c))).map
        (fun k => (k, (colors.filter fun c => !bannedColors.contains (lowerStr c)).count k))) :=
    (List.take_sublist _ _).subset hp
  have hp3 := ((sortByCountDesc_perm _).mem_iff).mp hp2
  obtain ⟨k, hk, hkp⟩ := List.mem_map.mp hp3
  have hk2 := dedupFirst_sub _ k hk
  obtain ⟨hkc, hkb⟩ := List.mem_filter.mp hk2
  have hck : c = k := by rw [← hpc, ← hkp]
  subst hck
  exact ⟨hkc, by simpa using hkb⟩

lemma get_top_colors_len (colors : List String) (n : ℕ) :
    (get_top_colors colors n).length ≤ n := by
  simp only [get_top_colors, List.length_map, List.length_take]
  exact min_le_left _ _

lemma get_top_colors_nodup (colors : List String) (n : ℕ) :
    (get_top_colors colors n).Nodup := by
  simp only [get_top_colors]
  rw [List.map_take]
  refine (List.take_sublist _ _).nodup ?_
  have hperm := (sortByCountDesc_perm
    ((dedupFirst (colors.filter fun c => !bannedColors.contains (lowerStr c))).map
      (fun k => (k, (colors.filter fun c => !bannedColors.contains (lowerStr c)).count k)))).map
    Prod.fst
  refine hperm.symm.nodup ?_
  rw [List.map_map]
  have hid : (Prod.fst ∘ fun k =>
      (k, (colors.filter fun c => !bannedColors.contains (lowerStr c)).count k)) = id := rfl
  rw [hid, List.map_id]
  exact dedupFirst_nodup _

/-- C6: the ranker's output never contains pure white or pure black in any
spelling (3- or 6-digit, either case), has length at most `n`, and has no
duplicates; and re-ranking after all occurrences of any color (in
particular the most frequent one) are removed from the input still never
yields a filtered white/black color. -/
theorem C6_ranker_filter_cap_nodup (colors : List String) (n : ℕ) (x : String) :
    (∀ c ∈ get_top_colors colors n, lowerStr c ∉ bannedColors) ∧
    (get_top_colors colors n).length ≤ n ∧
    (get_top_colors colors n).Nodup ∧
    ∀ c ∈ get_top_colors (colors.filter fun y => !(y == x)) n,
      lowerStr c ∉ bannedColors := by
  exact ⟨fun c hc => (get_top_colors_mem colors n c hc).2,
    get_top_colors_len colors n, get_top_colors_nodup colors n,
    fun c hc => (get_top_colors_mem _ n c hc).2⟩

/-- C6 witness: the theorem applied to a concrete input; the single
surviving color is not a banned spelling of white or black. -/
theorem C6_witness : lowerStr "#AABBCC" ∉ bannedColors :=
  (C6_ranker_filter_cap_nodup ["#AABBCC", "#fff"] 5 "#x").1 "#AABBCC" (by decide)

/-- C3 counterexample: on the spec's scenario input the extractor yields
`["#ffffff", "#AABBCC"]`, not `["#ffffff", "#aabbcc"]`: shorthand is
expanded, but letter case is preserved, so the stored colors are not
lowercase-canonical. -/
theorem C3_counterexample :
    extract_colors "body\x7bcolor:#fff\x7d .btn\x7bcolor:#ABC\x7d" = ["#ffffff", "#AABBCC"] ∧
    extract_colors "body\x7bcolor:#fff\x7d .btn\x7bcolor:#ABC\x7d" ≠ ["#ffffff", "#aabbcc"] :=
  ⟨by decide, by decide⟩

lemma extract_colors_six (s c : String) (h : c ∈ extract_colors s) :
    isSixDigitHex c = true := by
  unfold extract_colors at h
  obtain ⟨t, ht, rfl⟩ := List.mem_map.mp h
  obtain ⟨ds, h1, h2, h3⟩ := scanHex_shape s.data t ht
  exact expand_token_six t ds h1 h2 h3

lemma dropWhile_append_all (p : Char → Bool) (xs ys : List Char)
    (h : ∀ c ∈ xs, p c = true) :
    List.dropWhile p (xs ++ ys) = List.dropWhile p ys := by
  induction xs with
  | nil => rfl
  | cons a l ih =>
    rw [List.cons_append, List.dropWhile_cons, if_pos (h a (List.mem_cons_self _ _))]
    exact ih (fun c hc => h c (List.mem_cons_of_mem _ hc))

lemma matchButtonBlock_shape (l b r : List Char)
    (h : matchButtonBlock l = some (b, r)) : isButtonBlockB b = true := by
  unfold matchButtonBlock at h
  split at h
  · rename_i c1 c2 c3 c4 c5 c6 rest
    split_ifs at h with hci
    split at h
    · rename_i rest3 heq3
      split at h
      · rename_i rest4 heq4
        simp only [Option.some.injEq, Prod.mk.injEq] at h
        rw [← h.1]
        simp only [isButtonBlockB, hci, Bool.true_and]
        have hws : ∀ c ∈ rest.takeWhile wsChar, wsChar c = true :=
          fun c hc => List.mem_takeWhile_imp hc
        rw [dropWhile_append_all _ _ _ hws, List.dropWhile_cons,
          if_neg (by decide : ¬wsChar '{' = true)]
        simp only [List.getLast?_concat, List.dropLast_concat, beq_self_eq_true,
          Bool.true_and]
        exact List.all_takeWhile
      · simp at h
    · simp at h
  · simp at h

lemma buttonBlocksF_shape :
    ∀ (fuel : ℕ) (l b : List Char), b ∈ buttonBlocksF fuel l → isButtonBlockB b = true := by
  intro fuel
  induction fuel with
  | zero => intro l b h; simp [buttonBlocksF] at h
  | succ fuel ih =>
    intro l b h
    cases l with
    | nil => simp [buttonBlocksF] at h
    | cons c rest =>
      rw [buttonBlocksF] at h
      cases hm : matchButtonBlock (c :: rest) with
      | some p =>
        rw [hm] at h
        rcases List.mem_cons.mp h with h1 | h1
        · exact h1 ▸ matchButtonBlock_shape (c :: rest) p.1 p.2 (by rw [hm])
        · exact ih p.2 b h1
      | none =>
        rw [hm] at h
        exact ih rest b h

lemma buttonBlocks_shape (l b : List Char) (h : b ∈ buttonBlocks l) :
    isButtonBlockB b = true :=
  buttonBlocksF_shape l.length l b h

lemma button_colors_mem (inline css : List String) (c : String)
    (h : c ∈ extract_button_colors inline css) :
    ∃ t0, c = expand_color_shorthand t0 ∧
      ((∃ s ∈ inline, ∃ t ∈ scanHex s.data, t0 = String.mk t) ∨
       ∃ s ∈ css, ∃ b ∈ buttonBlocks s.data, ∃ t ∈ scanHex b, t0 = String.mk t) := by
  simp only [extract_button_colors] at h
  have h1 := dedupFirst_sub _ c ((List.take_sublist _ _).subset h)
  obtain ⟨t0, ht0, hexp⟩ := List.mem_map.mp h1
  refine ⟨t0, hexp.symm, ?_⟩
  rcases List.mem_append.mp ht0 with h2 | h2
  · obtain ⟨s, hs, ht⟩ := List.mem_flatMap.mp h2
    obtain ⟨t, htt, hmk⟩ := List.mem_map.mp ht
    exact Or.inl ⟨s, hs, t, htt, hmk.symm⟩
  · obtain ⟨s, hs, ht⟩ := List.mem_flatMap.mp h2
    obtain ⟨b, hb, htb⟩ := List.mem_flatMap.mp ht
    obtain ⟨t, htt, hmk⟩ := List.mem_map.mp htb
    exact Or.inr ⟨s, hs, b, hb, t, htt, hmk.symm⟩

lemma button_colors_six (inline css : List String) (c : String)
    (h : c ∈ extract_button_colors inline css) : isSixDigitHex c = true := by
  obtain ⟨t0, rfl, hsrc⟩ := button_colors_mem inline css c h
  rcases hsrc with ⟨s, _, t, ht, rfl⟩ | ⟨s, _, b, _, t, ht, rfl⟩
  · obtain ⟨ds, h1, h2, h3⟩ := scanHex_shape s.data t ht
    exact expand_token_six t ds h1 h2 h3
  · obtain ⟨ds, h1, h2, h3⟩ := scanHex_shape b t ht
    exact expand_token_six t ds h1 h2 h3

/-- C3 counterexample is stated above; this is the amended claim: every color
the core stores or returns is `#` followed by exactly six hex digits, with
the letter case of the source text preserved (not lowercased): every
extractor output is 6-digit, the ranker returns only elements of its input,
every button-palette entry is 6-digit, and on the scenario input the
extractor yields `["#ffffff", "#AABBCC"]` and the ranker with N=5 then
yields `["#AABBCC"]`. -/
theorem C3_six_digit_case_preserved :
    (∀ s c : String, c ∈ extract_colors s → isSixDigitHex c = true) ∧
    (∀ (colors : List String) (n : ℕ) (c : String),
      c ∈ get_top_colors colors n → c ∈ colors) ∧
    (∀ (inline css : List String) (c : String),
      c ∈ extract_button_colors inline css → isSixDigitHex c = true) ∧
    extract_colors "body\x7bcolor:#fff\x7d .btn\x7bcolor:#ABC\x7d" = ["#ffffff", "#AABBCC"] ∧
    get_top_colors (extract_colors "body\x7bcolor:#fff\x7d .btn\x7bcolor:#ABC\x7d") 5 =
      ["#AABBCC"] :=
  ⟨extract_colors_six,
   fun colors n c hc => (get_top_colors_mem colors n c hc).1,
   button_colors_six, by decide, by decide⟩

/-- C3 witness: the amended claim applied to the scenario input and its
first extracted color. -/
theorem C3_witness : isSixDigitHex "#ffffff" = true :=
  C3_six_digit_case_preserved.1 "body\x7bcolor:#fff\x7d .btn\x7bcolor:#ABC\x7d" "#ffffff" (by decide)

/-- C8 counterexample: the stylesheet `.navbutton{color:#123456}` has no rule
block whose selector is the literal tag name `button` — its only selector is
the class selector `.navbutton` — yet the color `#123456` inside it is
extracted, because the regex `button\s*{[^}]*}` also matches the suffix
`button{...}` of `.navbutton{...}`. -/
theorem C8_counterexample :
    extract_button_colors [] [".navbutton\x7bcolor:#123456\x7d"] = ["#123456"] := by decide

/-- C8 (amended): every stylesheet-sourced color in the button palette comes
from inside the declaration body of a substring matched by the rule-block
pattern: six characters spelling `button` case-insensitively (so any
selector merely ENDING in `button`, such as `.navbutton`, also qualifies),
then optional whitespace, `{`, a `}`-free body, and `}`; every other color
comes from the inline-style pass. -/
theorem C8_block_provenance (inline css : List String) (c : String)
    (h : c ∈ extract_button_colors inline css) :
    (∃ s ∈ inline, ∃ t ∈ scanHex s.data, c = expand_color_shorthand (String.mk t)) ∨
    ∃ s ∈ css, ∃ b ∈ buttonBlocks s.data, isButtonBlockB b = true ∧
      ∃ t ∈ scanHex b, c = expand_color_shorthand (String.mk t) := by
  obtain ⟨t0, rfl, hsrc⟩ := button_colors_mem inline css c h
  rcases hsrc with ⟨s, hs, t, ht, rfl⟩ | ⟨s, hs, b, hb, t, ht, rfl⟩
  · exact Or.inl ⟨s, hs, t, ht, rfl⟩
  · exact Or.inr ⟨s, hs, b, hb, buttonBlocks_shape s.data b hb, t, ht, rfl⟩

/-- C8 witness: the theorem applied to the `.navbutton` stylesheet shows the
extracted color's provenance is a matched block of `button`-suffix shape. -/
theorem C8_witness :
    (∃ s ∈ ([] : List String), ∃ t ∈ scanHex s.data,
      "#123456" = expand_color_shorthand (String.mk t)) ∨
    ∃ s ∈ [".navbutton\x7bcolor:#123456\x7d"], ∃ b ∈ buttonBlocks s.data,
      isButtonBlockB b = true ∧
      ∃ t ∈ scanHex b, "#123456" = expand_color_shorthand (String.mk t) :=
  C8_block_provenance [] [".navbutton\x7bcolor:#123456\x7d"] "#123456" (by decide)

/-- C10 counterexample: on two `button` rules spelling the same color in
different letter case, the result keeps both `#aabbcc` and `#AABBCC`: the
deduplication is by exact expanded string, not by canonical (lowercased)
form, so two spellings of one color can both appear. -/
theorem C10_counterexample :
    extract_button_colors [] ["button\x7bcolor:#abc\x7d button\x7bcolor:#ABC\x7d"] =
      ["#aabbcc", "#AABBCC"] ∧
    lowerStr "#aabbcc" = lowerStr "#AABBCC" ∧ "#aabbcc" ≠ "#AABBCC" :=
  ⟨by decide, by decide, by decide⟩

/-- C10 (amended): the button palette always has at most 4 elements and no
two entries that are equal as exact 6-digit-expanded strings (shorthand
variants of a color collapse to a single entry, but case variants may both
appear); every entry is a `#` followed by six hex digits. -/
theorem C10_cap_and_exact_dedup (inline css : List String) :
    (extract_button_colors inline css).length ≤ 4 ∧
    (extract_button_colors inline css).Nodup ∧
    ∀ c ∈ extract_button_colors inline css, isSixDigitHex c = true := by
  refine ⟨?_, ?_, fun c hc => button_colors_six inline css c hc⟩
  · simp only [extract_button_colors, List.length_take]
    exact min_le_left _ _
  · simp only [extract_button_colors]
    exact (List.take_sublist _ _).nodup (dedupFirst_nodup _)

/-- C10 witness: the theorem applied to a concrete stylesheet; the single
shorthand-expanded entry is a 6-digit hex color. -/
theorem C10_witness : isSixDigitHex "#112233" = true :=
  (C10_cap_and_exact_dedup [] ["button\x7bcolor:#123\x7d"]).2.2 "#112233" (by decide)
